import Mathlib

/-!
Verification of the `audit-export` core (src/src/index.js): a shallow
embedding of the JavaScript functions `processVulnerability`,
`getVulnerabilities`, `countVulnerabilities`, `generateHtmlTemplateContent`
(its template-data construction), `getFinalPath`, `join`, `getCurrentDate`,
`str` and `checkNumLength`, together with theorems about them.

JavaScript values are modelled by the inductive `JSVal` (with an explicit
`undef` constructor for `undefined`); JavaScript exceptions (`TypeError`
from spreading a non-iterable or calling `.join` on a non-array) are
modelled by `Option`, where `none` means the computation throws.
-/

namespace AuditExport

/-- A JavaScript value as it can arise from `JSON.parse` plus `undefined`.
Numbers are modelled as integers (no claim exercises non-integral numbers);
an object is its ordered list of own enumerable properties, keys unique. -/
inductive JSVal where
  | undef
  | null
  | bool (b : Bool)
  | num (n : Int)
  | str (s : String)
  | arr (xs : List JSVal)
  | obj (fields : List (String × JSVal))
deriving Repr

mutual

def JSVal.decEq : (a b : JSVal) → Decidable (a = b)
  | .undef, .undef => .isTrue rfl
  | .null, .null => .isTrue rfl
  | .bool a, .bool b =>
      match Bool.decEq a b with
      | .isTrue h => .isTrue (by rw [h])
      | .isFalse h => .isFalse (by intro hh; injection hh with h1; exact h h1)
  | .num a, .num b =>
      match Int.decEq a b with
      | .isTrue h => .isTrue (by rw [h])
      | .isFalse h => .isFalse (by intro hh; injection hh with h1; exact h h1)
  | .str a, .str b =>
      match String.decEq a b with
      | .isTrue h => .isTrue (by rw [h])
      | .isFalse h => .isFalse (by intro hh; injection hh with h1; exact h h1)
  | .arr a, .arr b =>
      match JSVal.decEqList a b with
      | .isTrue h => .isTrue (by rw [h])
      | .isFalse h => .isFalse (by intro hh; injection hh with h1; exact h h1)
  | .obj a, .obj b =>
      match JSVal.decEqFields a b with
      | .isTrue h => .isTrue (by rw [h])
      | .isFalse h => .isFalse (by intro hh; injection hh with h1; exact h h1)
  | .undef, .null => .isFalse nofun
  | .undef, .bool _ => .isFalse nofun
  | .undef, .num _ => .isFalse nofun
  | .undef, .str _ => .isFalse nofun
  | .undef, .arr _ => .isFalse nofun
  | .undef, .obj _ => .isFalse nofun
  | .null, .undef => .isFalse nofun
  | .null, .bool _ => .isFalse nofun
  | .null, .num _ => .isFalse nofun
  | .null, .str _ => .isFalse nofun
  | .null, .arr _ => .isFalse nofun
  | .null, .obj _ => .isFalse nofun
  | .bool _, .undef => .isFalse nofun
  | .bool _, .null => .isFalse nofun
  | .bool _, .num _ => .isFalse nofun
  | .bool _, .str _ => .isFalse nofun
  | .bool _, .arr _ => .isFalse nofun
  | .bool _, .obj _ => .isFalse nofun
  | .num _, .undef => .isFalse nofun
  | .num _, .null => .isFalse nofun
  | .num _, .bool _ => .isFalse nofun
  | .num _, .str _ => .isFalse nofun
  | .num _, .arr _ => .isFalse nofun
  | .num _, .obj _ => .isFalse nofun
  | .str _, .undef => .isFalse nofun
  | .str _, .null => .isFalse nofun
  | .str _, .bool _ => .isFalse nofun
  | .str _, .num _ => .isFalse nofun
  | .str _, .arr _ => .isFalse nofun
  | .str _, .obj _ => .isFalse nofun
  | .arr _, .undef => .isFalse nofun
  | .arr _, .null => .isFalse nofun
  | .arr _, .bool _ => .isFalse nofun
  | .arr _, .num _ => .isFalse nofun
  | .arr _, .str _ => .isFalse nofun
  | .arr _, .obj _ => .isFalse nofun
  | .obj _, .undef => .isFalse nofun
  | .obj _, .null => .isFalse nofun
  | .obj _, .bool _ => .isFalse nofun
  | .obj _, .num _ => .isFalse nofun
  | .obj _, .str _ => .isFalse nofun
  | .obj _, .arr _ => .isFalse nofun

def JSVal.decEqList : (a b : List JSVal) → Decidable (a = b)
  | [], [] => .isTrue rfl
  | [], _ :: _ => .isFalse nofun
  | _ :: _, [] => .isFalse nofun
  | x :: xs, y :: ys =>
      match JSVal.decEq x y, JSVal.decEqList xs ys with
      | .isTrue h1, .isTrue h2 => .isTrue (by rw [h1, h2])
      | .isFalse h1, _ => .isFalse (by intro hh; injection hh with a b; exact h1 a)
      | _, .isFalse h2 => .isFalse (by intro hh; injection hh with a b; exact h2 b)

def JSVal.decEqFields : (a b : List (String × JSVal)) → Decidable (a = b)
  | [], [] => .isTrue rfl
  | [], _ :: _ => .isFalse nofun
  | _ :: _, [] => .isFalse nofun
  | (k1, v1) :: xs, (k2, v2) :: ys =>
      match String.decEq k1 k2, JSVal.decEq v1 v2, JSVal.decEqFields xs ys with
      | .isTrue h1, .isTrue h2, .isTrue h3 => .isTrue (by rw [h1, h2, h3])
      | .isFalse h1, _, _ =>
          .isFalse (by intro hh; injection hh with hp ht; injection hp with ha hb; exact h1 ha)
      | _, .isFalse h2, _ =>
          .isFalse (by intro hh; injection hh with hp ht; injection hp with ha hb; exact h2 hb)
      | _, _, .isFalse h3 =>
          .isFalse (by intro hh; injection hh with hp ht; exact h3 ht)

end

instance : DecidableEq JSVal := JSVal.decEq

/-- JavaScript truthiness of a value (`if (v)`). `undefined`, `null`,
`false`, `0`, and `""` are falsy; every array and object is truthy. -/
def truthy : JSVal → Bool
  | .undef => false
  | .null => false
  | .bool b => b
  | .num n => decide (n ≠ 0)
  | .str s => decide (s ≠ "")
  | .arr _ => true
  | .obj _ => true

/-- Property access `v.k`: on an object, the value stored under the key
(keys are unique after parsing); on anything else, `undefined` (none of the
accessed names — `title`, `url`, `name`, `module_name`, `severity`, `cwe`,
`cves`, `via`, `vulnerabilities`, `advisories` — is a built-in property of
a primitive or an array). -/
def getProp (v : JSVal) (k : String) : JSVal :=
  match v with
  | .obj fields =>
      match fields.lookup k with
      | some x => x
      | none => .undef
  | _ => .undef

mutual

/-- JavaScript `ToString` on the values `JSVal` models: arrays stringify by
joining their elements with `","`, plain objects as `"[object Object]"`. -/
def jsValToString : JSVal → String
  | .undef => "undefined"
  | .null => "null"
  | .bool b => cond b "true" "false"
  | .num n => toString n
  | .str s => s
  | .arr xs => jsJoinWith "," xs
  | .obj _ => "[object Object]"

/-- How `Array.prototype.join` renders one element: `undefined` and `null`
become the empty string, everything else its `ToString`. -/
def jsJoinElem : JSVal → String
  | .undef => ""
  | .null => ""
  | .bool b => cond b "true" "false"
  | .num n => toString n
  | .str s => s
  | .arr xs => jsJoinWith "," xs
  | .obj _ => "[object Object]"

/-- `Array.prototype.join(sep)` over the element list. -/
def jsJoinWith (sep : String) : List JSVal → String
  | [] => ""
  | [x] => jsJoinElem x
  | x :: y :: xs => jsJoinElem x ++ sep ++ jsJoinWith sep (y :: xs)

end

/-- `Array.prototype.concat` of one argument onto an array: an array
argument is spread element-wise, any other value is appended as one
element (so `concat(undefined)` appends `undefined` itself). -/
def arrayConcat (xs : List JSVal) (v : JSVal) : List JSVal :=
  match v with
  | .arr ys => xs ++ ys
  | other => xs ++ [other]

/-- The normalized record built by `processVulnerability` (line 126-132 of
src/index.js). Field values other than `cwes` are passed through as raw
JavaScript values, exactly as the source does. -/
structure Vulnerability where
  link : JSVal
  name : JSVal
  package : JSVal
  severity : JSVal
  cwes : String
deriving Repr, DecidableEq

/-- `(vuln.cwe || []).concat(vuln.cves).join(", ")` (line 131). `none`
models a thrown `TypeError`: when `cwe` is truthy but not an array, the
receiver of `.concat` is not an array, so the subsequent `.join` (or
`.concat` itself) throws. -/
def computeCwes (vuln : JSVal) : Option String :=
  let cwe := getProp vuln "cwe"
  let base := if truthy cwe then cwe else .arr []
  match base with
  | .arr xs => some (jsJoinWith ", " (arrayConcat xs (getProp vuln "cves")))
  | _ => none

/-- JavaScript `a || b`. -/
def jsOr (a b : JSVal) : JSVal :=
  if truthy a then a else b

/-- `processVulnerability` (lines 124-134): with a truthy `title` it builds
the record, otherwise it falls off the end and returns `undefined`
(modelled `some none`); the outer `none` models a thrown `TypeError` from
the `cwes` computation. -/
def processVulnerability (vuln : JSVal) : Option (Option Vulnerability) :=
  if truthy (getProp vuln "title") then
    match computeCwes vuln with
    | some c =>
        some (some
          { link := getProp vuln "url"
            name := getProp vuln "title"
            package := jsOr (getProp vuln "name") (getProp vuln "module_name")
            severity := getProp vuln "severity"
            cwes := c })
    | none => none
  else
    some none

/-- Spreading a value with `...` into an array literal / `push`: arrays
spread into their elements, strings into their characters (strings are
iterable); every other value is not iterable and throws (`none`). -/
def spreadVia : JSVal → Option (List JSVal)
  | .arr xs => some xs
  | .str s => some (s.data.map fun c => JSVal.str c.toString)
  | _ => none

/-- The own enumerable properties `for (const k in v)` iterates over, with
the values `v[k]`: an object's field list in its key order, a string's or
array's indexed elements, and nothing for primitives. -/
def ownEnumerableEntries : JSVal → List (String × JSVal)
  | .obj fields => fields
  | .str s =>
      ((List.range s.length).zip (s.data.map fun c => JSVal.str c.toString)).map
        fun p => (toString p.1, p.2)
  | .arr xs => (List.range xs.length).zip xs |>.map fun p => (toString p.1, p.2)
  | _ => []

/-- The loop at lines 107-109: for every entry of `data.vulnerabilities`
in key order, `allVulns.push(...data.vulnerabilities[pkg].via)`. `none`
models the `TypeError` thrown when some entry's `via` is not iterable. -/
def collectViaAll : List (String × JSVal) → Option (List JSVal)
  | [] => some []
  | e :: rest => do
      let via ← spreadVia (getProp e.2 "via")
      let tail ← collectViaAll rest
      pure (via ++ tail)

/-- The raw advisory-like sequence gathered by `getVulnerabilities`
(lines 104-114) before mapping: the `vulnerabilities` branch is taken when
that property is truthy, else the `advisories` branch when that one is
truthy, else the empty sequence. -/
def getVulnerabilitiesRaw (data : JSVal) : Option (List JSVal) :=
  if truthy (getProp data "vulnerabilities") then
    collectViaAll (ownEnumerableEntries (getProp data "vulnerabilities"))
  else if truthy (getProp data "advisories") then
    some ((ownEnumerableEntries (getProp data "advisories")).map Prod.snd)
  else
    some []

/-- `allVulns.map((vuln) => processVulnerability(vuln))`, left to right,
propagating a thrown `TypeError`. -/
def mapProcess : List JSVal → Option (List (Option Vulnerability))
  | [] => some []
  | v :: vs => do
      let pv ← processVulnerability v
      let rest ← mapProcess vs
      pure (pv :: rest)

/-- `getVulnerabilities` (lines 103-117): gather the raw entries, map
`processVulnerability` over them and keep the truthy results
(`.filter(vuln => vuln)` drops exactly the `undefined` ones, since every
returned record is an object, hence truthy). -/
def getVulnerabilities (data : JSVal) : Option (List Vulnerability) := do
  let raw ← getVulnerabilitiesRaw data
  let mapped ← mapProcess raw
  pure (mapped.filterMap id)

/-- `countVulnerabilities` (lines 94-96): entries whose `severity` is
`===` the given severity string literal. Strict equality against a string
literal holds exactly for the identical string value. -/
def countVulnerabilities (vulnerabilities : List Vulnerability) (severity : String) : Nat :=
  (vulnerabilities.filter fun vuln => decide (vuln.severity = JSVal.str severity)).length

/-- `[...new Set(l)]` (line 75): the distinct elements of `l` in first
occurrence order. -/
def setOfList (l : List JSVal) : List JSVal :=
  l.foldl (fun acc x => if x ∈ acc then acc else acc ++ [x]) []

/-- The components `getCurrentDate` reads off a JavaScript `Date`; the
clock is injected so the embedding stays deterministic. `month` is the
0-based month index of `getMonth`. -/
structure JSDate where
  date : Nat
  month : Nat
  fullYear : Nat
  hours : Nat
  minutes : Nat
  seconds : Nat
deriving Repr, DecidableEq

/-- The month-name table of `getCurrentDate` (line 154). -/
def months : List String :=
  ["January", "February", "March", "April", "May", "June", "July",
   "August", "September", "October", "November", "December"]

/-- `str` (lines 165-167): number to decimal string. -/
def str (n : Nat) : String :=
  toString n

/-- `checkNumLength` (lines 174-177): keep two-character strings, prefix
everything else with `"0"`. -/
def checkNumLength (number : String) : String :=
  if number.length == 2 then number else "0" ++ number

/-- `getCurrentDate` (lines 153-158) over an injected clock; an
out-of-range month index renders as `"undefined"`, as the template
literal would print it. -/
def getCurrentDate (d : JSDate) : String :=
  checkNumLength (str d.date) ++ " of " ++ months.getD d.month "undefined" ++ ", " ++
    toString d.fullYear ++ " - " ++ checkNumLength (str d.hours) ++ ":" ++
    checkNumLength (str d.minutes) ++ ":" ++ checkNumLength (str d.seconds)

/-- The object literal `templateData` built at lines 73-83 and handed to
`ejs.render`. -/
structure TemplateData where
  vulnsFound : Nat
  vulnerableDependencies : Nat
  currentDate : String
  criticalVulns : Nat
  highVulns : Nat
  moderateVulns : Nat
  lowVulns : Nat
  infoVulns : Nat
  vulnerabilities : List Vulnerability
deriving Repr, DecidableEq

/-- The property keys of the `templateData` object literal (lines 73-83),
in source order. -/
def templateDataKeys : List String :=
  ["vulnsFound", "vulnerableDependencies", "currentDate", "criticalVulns",
   "highVulns", "moderateVulns", "lowVulns", "infoVulns", "vulnerabilities"]

/-- The template-data construction of `generateHtmlTemplateContent`
(lines 70-83) over the already-parsed input and an injected clock;
`JSON.parse` and `ejs.render` are external collaborators. `none` models a
`TypeError` escaping `getVulnerabilities`. -/
def generateTemplateData (data : JSVal) (clock : JSDate) : Option TemplateData := do
  let vulnerabilities ← getVulnerabilities data
  pure
    { vulnsFound := vulnerabilities.length
      vulnerableDependencies := (setOfList (vulnerabilities.map fun vuln => vuln.package)).length
      currentDate := getCurrentDate clock
      criticalVulns := countVulnerabilities vulnerabilities "critical"
      highVulns := countVulnerabilities vulnerabilities "high"
      moderateVulns := countVulnerabilities vulnerabilities "moderate"
      lowVulns := countVulnerabilities vulnerabilities "low"
      infoVulns := countVulnerabilities vulnerabilities "info"
      vulnerabilities := vulnerabilities }

/-- `OUTPUT_FILE_NAME` (line 7). -/
def OUTPUT_FILE_NAME : String := "audit-report.html"

/-- `join` (lines 141-147) with the platform injected: backslash separator
on win32, forward slash elsewhere. -/
def join (platform : String) (paths : List String) : String :=
  if platform == "win32" then
    String.intercalate "\\" paths
  else
    String.intercalate "/" paths

/-- `getFinalPath` (lines 27-29); `filePath` is `process.argv[3]`, absent
or a string, and the ternary tests its truthiness (an empty string falls
back to the default name). -/
def getFinalPath (platform folderPath : String) (filePath : Option String) : String :=
  match filePath with
  | some fp =>
      if fp = "" then join platform [folderPath, OUTPUT_FILE_NAME]
      else join platform [folderPath, fp]
  | none => join platform [folderPath, OUTPUT_FILE_NAME]

/-- Whether a value is a JavaScript object (the only shape `getProp` can
read the accessed keys from). -/
def isObjB : JSVal → Bool
  | .obj _ => true
  | _ => false

/-- Whether a value has the given own property key (key presence, as
opposed to the truthiness the source actually tests). -/
def hasKey : JSVal → String → Bool
  | .obj fields, k => fields.any fun p => p.1 == k
  | _, _ => false

/-- Whether a `Vulnerability`'s severity is one of the five literals the
aggregator counts. -/
def knownSeverity (v : Vulnerability) : Bool :=
  decide (v.severity = JSVal.str "critical") || decide (v.severity = JSVal.str "high") ||
    decide (v.severity = JSVal.str "moderate") || decide (v.severity = JSVal.str "low") ||
    decide (v.severity = JSVal.str "info")

theorem lookup_eq_none_of_not_mem (fields : List (String × JSVal)) (k : String)
    (h : k ∉ fields.map Prod.fst) : fields.lookup k = none := by
  induction fields with
  | nil => rfl
  | cons p rest ih =>
    simp only [List.map_cons, List.mem_cons] at h
    push_neg at h
    rcases p with ⟨k1, v1⟩
    simp only [List.lookup]
    rw [show (k == k1) = false from beq_eq_false_iff_ne.mpr h.1]
    exact ih h.2

theorem isObjB_of_truthy_getProp (v : JSVal) (k : String)
    (h : truthy (getProp v k) = true) : isObjB v = true := by
  cases v <;> simp_all [getProp, truthy, isObjB]

theorem setOfList_aux (l acc : List JSVal) (hacc : acc.Nodup) :
    (l.foldl (fun acc x => if x ∈ acc then acc else acc ++ [x]) acc).Nodup ∧
    (l.foldl (fun acc x => if x ∈ acc then acc else acc ++ [x]) acc).toFinset =
      acc.toFinset ∪ l.toFinset := by
  induction l generalizing acc with
  | nil => simp [hacc]
  | cons x l ih =>
    simp only [List.foldl_cons]
    by_cases hx : x ∈ acc
    · simp only [hx, if_true]
      refine ⟨(ih acc hacc).1, ?_⟩
      rw [(ih acc hacc).2, List.toFinset_cons]
      ext a
      simp only [Finset.mem_union, Finset.mem_insert, List.mem_toFinset]
      constructor
      · rintro (h | h)
        · exact Or.inl h
        · exact Or.inr (Or.inr h)
      · rintro (h | rfl | h)
        · exact Or.inl h
        · exact Or.inl hx
        · exact Or.inr h
    · simp only [hx, if_false]
      have hnd : (acc ++ [x]).Nodup := by
        simp [List.nodup_append, hacc, hx]
      refine ⟨(ih (acc ++ [x]) hnd).1, ?_⟩
      rw [(ih (acc ++ [x]) hnd).2, List.toFinset_append, List.toFinset_cons]
      ext a
      simp only [Finset.mem_union, Finset.mem_insert, List.mem_toFinset, List.mem_singleton,
        List.toFinset_cons, List.toFinset_nil, Finset.mem_singleton,
        Finset.union_assoc]
      tauto

theorem setOfList_length (l : List JSVal) : (setOfList l).length = l.toFinset.card := by
  have h := setOfList_aux l [] (by simp)
  have h2 : (setOfList l).toFinset = l.toFinset := by
    simpa [setOfList] using h.2
  rw [← h2]
  exact (List.toFinset_card_of_nodup (by simpa [setOfList] using h.1)).symm

theorem setOfList_length_le (l : List JSVal) : (setOfList l).length ≤ l.length := by
  rw [setOfList_length]
  exact List.toFinset_card_le l

theorem countVulnerabilities_cons (v : Vulnerability) (l : List Vulnerability) (s : String) :
    countVulnerabilities (v :: l) s =
      countVulnerabilities l s + (if v.severity = JSVal.str s then 1 else 0) := by
  simp only [countVulnerabilities, List.filter_cons]
  by_cases h : v.severity = JSVal.str s <;> simp [h]

theorem sum_counts_eq (l : List Vulnerability) :
    countVulnerabilities l "critical" + countVulnerabilities l "high" +
      countVulnerabilities l "moderate" + countVulnerabilities l "low" +
      countVulnerabilities l "info" = (l.filter knownSeverity).length := by
  induction l with
  | nil => rfl
  | cons v l ih =>
    rw [countVulnerabilities_cons, countVulnerabilities_cons, countVulnerabilities_cons,
      countVulnerabilities_cons, countVulnerabilities_cons, List.filter_cons]
    by_cases h1 : v.severity = JSVal.str "critical" <;>
      by_cases h2 : v.severity = JSVal.str "high" <;>
      by_cases h3 : v.severity = JSVal.str "moderate" <;>
      by_cases h4 : v.severity = JSVal.str "low" <;>
      by_cases h5 : v.severity = JSVal.str "info" <;>
      simp_all [knownSeverity] <;> omega

theorem jsJoinWith_append_undef (sep : String) (cs : List JSVal) :
    jsJoinWith sep (cs ++ [JSVal.undef]) =
      jsJoinWith sep cs ++ (if cs.isEmpty then "" else sep) := by
  induction cs with
  | nil => simp [jsJoinWith, jsJoinElem]
  | cons x xs ih =>
    cases xs with
    | nil => simp [jsJoinWith, jsJoinElem]
    | cons y ys =>
      simp only [List.cons_append, jsJoinWith, List.isEmpty_cons, List.append_eq] at ih ⊢
      rw [ih]
      simp [String.append_assoc]

theorem collectViaAll_eq_none (entries : List (String × JSVal)) (e : String × JSVal)
    (he : e ∈ entries) (hvia : spreadVia (getProp e.2 "via") = none) :
    collectViaAll entries = none := by
  induction entries with
  | nil => cases he
  | cons a rest ih =>
    rcases List.mem_cons.mp he with h | h
    · subst h
      simp [collectViaAll, hvia]
    · cases hs : spreadVia (getProp a.2 "via") <;>
        simp [collectViaAll, hs, ih h]

theorem collectViaAll_eq_some (entries : List (String × JSVal))
    (h : ∀ e ∈ entries, (spreadVia (getProp e.2 "via")).isSome = true) :
    collectViaAll entries =
      some (entries.flatMap fun e => (spreadVia (getProp e.2 "via")).getD []) := by
  induction entries with
  | nil => rfl
  | cons a rest ih =>
    rcases Option.isSome_iff_exists.mp (h a (List.mem_cons_self a rest)) with ⟨xs, hs⟩
    have ihr := ih fun e he => h e (List.mem_cons_of_mem a he)
    simp [collectViaAll, hs, ihr]

theorem mapProcess_eq_some (raw : List JSVal) (mapped : List (Option Vulnerability))
    (h : mapProcess raw = some mapped) :
    mapped.length = raw.length ∧
    (∀ (i : Nat) (h1 : i < raw.length) (h2 : i < mapped.length),
        processVulnerability (raw.get ⟨i, h1⟩) = some (mapped.get ⟨i, h2⟩)) ∧
    (∀ ov ∈ mapped, ∃ u, processVulnerability u = some ov) := by
  induction raw generalizing mapped with
  | nil =>
    simp only [mapProcess] at h
    cases h
    simp
  | cons v vs ih =>
    simp only [mapProcess] at h
    cases hp : processVulnerability v with
    | none => rw [hp] at h; cases h
    | some pv =>
      rw [hp] at h
      cases hr : mapProcess vs with
      | none => rw [hr] at h; cases h
      | some rest =>
        rw [hr] at h
        simp only [Option.bind_eq_bind, Option.some_bind, Option.pure_def,
          Option.some.injEq] at h
        subst h
        rcases ih rest hr with ⟨hlen, hget, hmem⟩
        refine ⟨by simp [hlen], ?_, ?_⟩
        · intro i h1 h2
          cases i with
          | zero => simpa using hp
          | succ n =>
            simpa using hget n (by simpa using h1) (by simpa using h2)
        · intro ov hov
          rcases List.mem_cons.mp hov with h | h
          · exact ⟨v, h ▸ hp⟩
          · exact hmem ov h

theorem processVulnerability_isSome (u : JSVal) (ov : Option Vulnerability)
    (h : processVulnerability u = some ov) :
    ov.isSome = (isObjB u && truthy (getProp u "title")) := by
  by_cases ht : truthy (getProp u "title") = true
  · have hobj := isObjB_of_truthy_getProp u "title" ht
    simp only [processVulnerability, ht, if_true] at h
    cases hc : computeCwes u with
    | none => rw [hc] at h; cases h
    | some c =>
      rw [hc] at h
      cases h
      simp [hobj, ht]
  · have ht' : truthy (getProp u "title") = false := by
      simpa using ht
    simp only [processVulnerability, ht', Bool.false_eq_true, if_false] at h
    cases h
    simp [ht']

theorem processVulnerability_name (u : JSVal) (v : Vulnerability)
    (h : processVulnerability u = some (some v)) :
    v.name = getProp u "title" ∧ truthy v.name = true := by
  by_cases ht : truthy (getProp u "title") = true
  · simp only [processVulnerability, ht, if_true] at h
    cases hc : computeCwes u with
    | none => rw [hc] at h; cases h
    | some c =>
      rw [hc] at h
      simp only [Option.some.injEq] at h
      subst h
      exact ⟨rfl, ht⟩
  · have ht' : truthy (getProp u "title") = false := by
      simpa using ht
    simp [processVulnerability, ht'] at h

/-! Concrete sample inputs used by counterexamples and witnesses. -/

/-- The legacy-shape advisory of the spec's Scenario A. -/
def advFoo : JSVal :=
  .obj [("title", .str "Foo"), ("name", .str "bar"), ("severity", .str "high"),
    ("cwe", .arr [.str "CWE-1"]), ("cves", .arr [.str "CVE-2020-1"])]

/-- A legacy-shape input document holding `advFoo` under `advisories`. -/
def docAdv : JSVal := .obj [("advisories", .obj [("1", advFoo)])]

/-- The `Vulnerability` the pipeline produces from `advFoo`. -/
def vulnFoo : Vulnerability :=
  { link := .undef, name := .str "Foo", package := .str "bar",
    severity := .str "high", cwes := "CWE-1, CVE-2020-1" }

/-- An advisory with a truthy title, a one-element `cwe` and no `cves`. -/
def advTrailDoc : JSVal :=
  .obj [("title", .str "T"), ("cwe", .arr [.str "CWE-79"])]

/-- A document carrying a present-but-falsy `vulnerabilities` key next to a
populated `advisories` map. -/
def docBothKeys : JSVal :=
  .obj [("vulnerabilities", .null), ("advisories", .obj [("1", advFoo)])]

/-- `docBothKeys` with the `advisories` entry removed; the value under
`vulnerabilities` is unchanged. -/
def docOnlyFalsyVulns : JSVal := .obj [("vulnerabilities", .null)]

/-- A modern-shape document whose single package entry has no `via`. -/
def docMissingVia : JSVal :=
  .obj [("vulnerabilities", .obj [("pkgA", .obj [])])]

/-- A fixed clock used by witnesses. -/
def sampleClock : JSDate := ⟨1, 0, 2026, 2, 3, 4⟩

/-! The claims. -/

/-- **C10.** For every folder path, the final output path is the folder
joined with the supplied file name when a (non-empty) one is given, and
the folder joined with the fixed default file name `"audit-report.html"`
otherwise, using `"\\"` as separator on win32 and `"/"` on every other
platform. -/
theorem claim_C10_final_path (platform folderPath : String) :
    (∀ fp : String, fp ≠ "" →
        getFinalPath platform folderPath (some fp) = join platform [folderPath, fp]) ∧
    getFinalPath platform folderPath none = join platform [folderPath, OUTPUT_FILE_NAME] ∧
    OUTPUT_FILE_NAME = "audit-report.html" ∧
    (platform = "win32" → ∀ a b : String, join platform [a, b] = a ++ "\\" ++ b) ∧
    (platform ≠ "win32" → ∀ a b : String, join platform [a, b] = a ++ "/" ++ b) := by
  refine ⟨?_, rfl, rfl, ?_, ?_⟩
  · intro fp hfp
    simp [getFinalPath, hfp]
  · intro hp a b
    simp [join, hp]
    rfl
  · intro hp a b
    have hp' : (platform == "win32") = false := by
      simpa using hp
    simp only [join, hp', Bool.false_eq_true, if_false]
    rfl

/-- Witness for C10 at a concrete platform, folder and file name. -/
theorem claim_C10_witness :
    getFinalPath "linux" "out" (some "report.html") = join "linux" ["out", "report.html"] :=
  (claim_C10_final_path "linux" "out").1 "report.html" (by decide)

/-- **C5.** A parsed input document with neither an `advisories` key nor a
`vulnerabilities` key raises no error: the normalized vulnerability list
is empty and the aggregate `vulnsFound` equals 0. -/
theorem claim_C5_neither_key (fields : List (String × JSVal)) (clock : JSDate)
    (hv : "vulnerabilities" ∉ fields.map Prod.fst)
    (ha : "advisories" ∉ fields.map Prod.fst) :
    getVulnerabilities (JSVal.obj fields) = some [] ∧
    generateTemplateData (JSVal.obj fields) clock =
      some
        { vulnsFound := 0
          vulnerableDependencies := 0
          currentDate := getCurrentDate clock
          criticalVulns := 0
          highVulns := 0
          moderateVulns := 0
          lowVulns := 0
          infoVulns := 0
          vulnerabilities := [] } := by
  have hv' : getProp (JSVal.obj fields) "vulnerabilities" = JSVal.undef := by
    simp [getProp, lookup_eq_none_of_not_mem fields _ hv]
  have ha' : getProp (JSVal.obj fields) "advisories" = JSVal.undef := by
    simp [getProp, lookup_eq_none_of_not_mem fields _ ha]
  have hgv : getVulnerabilities (JSVal.obj fields) = some [] := by
    simp [getVulnerabilities, getVulnerabilitiesRaw, hv', ha', truthy, mapProcess]
  refine ⟨hgv, ?_⟩
  simp [generateTemplateData, hgv, setOfList, countVulnerabilities]

/-- Witness for C5 at a concrete document without either key. -/
theorem claim_C5_witness :
    getVulnerabilities (JSVal.obj [("foo", JSVal.null)]) = some [] ∧
    generateTemplateData (JSVal.obj [("foo", JSVal.null)]) sampleClock =
      some
        { vulnsFound := 0
          vulnerableDependencies := 0
          currentDate := getCurrentDate sampleClock
          criticalVulns := 0
          highVulns := 0
          moderateVulns := 0
          lowVulns := 0
          infoVulns := 0
          vulnerabilities := [] } :=
  claim_C5_neither_key [("foo", JSVal.null)] sampleClock (by decide) (by decide)

/-- **C8.** Two-run determinism: the render payload is a pure function of
the parsed input and the injected clock (the code passes no title into the
payload, so it is a fortiori a pure function of input, clock and title);
running the pipeline twice on identical input with an identically injected
clock yields identical payload objects. -/
theorem claim_C8_determinism (d1 d2 : JSVal) (c1 c2 : JSDate)
    (hd : d1 = d2) (hc : c1 = c2) :
    generateTemplateData d1 c1 = generateTemplateData d2 c2 := by
  subst hd
  subst hc
  rfl

/-- Witness for C8: two runs on the Scenario-A document agree. -/
theorem claim_C8_witness :
    generateTemplateData docAdv sampleClock = generateTemplateData docAdv sampleClock :=
  claim_C8_determinism docAdv docAdv sampleClock sampleClock rfl rfl

theorem generateTemplateData_eq_some (data : JSVal) (clock : JSDate) (td : TemplateData)
    (h : generateTemplateData data clock = some td) :
    ∃ l, getVulnerabilities data = some l ∧
      td =
        { vulnsFound := l.length
          vulnerableDependencies := (setOfList (l.map fun v => v.package)).length
          currentDate := getCurrentDate clock
          criticalVulns := countVulnerabilities l "critical"
          highVulns := countVulnerabilities l "high"
          moderateVulns := countVulnerabilities l "moderate"
          lowVulns := countVulnerabilities l "low"
          infoVulns := countVulnerabilities l "info"
          vulnerabilities := l } := by
  cases hgv : getVulnerabilities data with
  | none =>
    rw [generateTemplateData, hgv] at h
    cases h
  | some l =>
    rw [generateTemplateData, hgv] at h
    simp only [Option.bind_eq_bind, Option.some_bind, Option.pure_def,
      Option.some.injEq] at h
    exact ⟨l, rfl, h.symm⟩

/-- **C6.** In every render payload, `vulnerableDependencies` equals the
number of distinct `package` values of the normalized list (exact,
case-sensitive value equality), and is at most `vulnsFound`. -/
theorem claim_C6_distinct_packages (data : JSVal) (clock : JSDate) (td : TemplateData)
    (h : generateTemplateData data clock = some td) :
    td.vulnerableDependencies = (td.vulnerabilities.map fun v => v.package).toFinset.card ∧
    td.vulnerableDependencies ≤ td.vulnsFound := by
  rcases generateTemplateData_eq_some data clock td h with ⟨l, _, rfl⟩
  refine ⟨setOfList_length _, ?_⟩
  have h1 := setOfList_length_le (l.map fun v => v.package)
  simpa using h1

/-- The payload produced from the Scenario-A document `docAdv` at the
fixed sample clock. -/
def tdAdv : TemplateData :=
  { vulnsFound := 1
    vulnerableDependencies := 1
    currentDate := "01 of January, 2026 - 02:03:04"
    criticalVulns := 0
    highVulns := 1
    moderateVulns := 0
    lowVulns := 0
    infoVulns := 0
    vulnerabilities := [vulnFoo] }

/-- Witness for C6 at the Scenario-A document. -/
theorem claim_C6_witness :
    tdAdv.vulnerableDependencies =
      (tdAdv.vulnerabilities.map fun v => v.package).toFinset.card ∧
    tdAdv.vulnerableDependencies ≤ tdAdv.vulnsFound :=
  claim_C6_distinct_packages docAdv sampleClock tdAdv (by rfl)

/-- **C7.** In every render payload the five severity counts sum to at
most `vulnsFound`, with equality exactly when every entry's severity is
one of the five known literals (case-sensitive); an unrecognized severity
contributes to no bucket yet still counts in `vulnsFound`. -/
theorem claim_C7_severity_counts (data : JSVal) (clock : JSDate) (td : TemplateData)
    (h : generateTemplateData data clock = some td) :
    td.criticalVulns + td.highVulns + td.moderateVulns + td.lowVulns + td.infoVulns ≤
      td.vulnsFound ∧
    (td.criticalVulns + td.highVulns + td.moderateVulns + td.lowVulns + td.infoVulns =
        td.vulnsFound ↔
      ∀ v ∈ td.vulnerabilities, knownSeverity v = true) := by
  rcases generateTemplateData_eq_some data clock td h with ⟨l, _, rfl⟩
  simp only [sum_counts_eq]
  exact ⟨List.length_filter_le _ _, List.filter_length_eq_length⟩

/-- Witness for C7 at the Scenario-A document. -/
theorem claim_C7_witness :
    tdAdv.criticalVulns + tdAdv.highVulns + tdAdv.moderateVulns + tdAdv.lowVulns +
        tdAdv.infoVulns ≤ tdAdv.vulnsFound ∧
    (tdAdv.criticalVulns + tdAdv.highVulns + tdAdv.moderateVulns + tdAdv.lowVulns +
          tdAdv.infoVulns = tdAdv.vulnsFound ↔
      ∀ v ∈ tdAdv.vulnerabilities, knownSeverity v = true) :=
  claim_C7_severity_counts docAdv sampleClock tdAdv (by rfl)

/-- **C2, counterexample.** The object literal handed to the renderer has
no `title` property at all — no caller-supplied title (nor the default
report title) is part of the payload, for any input — while the other
promised components are present. -/
theorem claim_C2_counterexample :
    "title" ∉ templateDataKeys ∧ "currentDate" ∈ templateDataKeys ∧
    "vulnerabilities" ∈ templateDataKeys := by
  decide

/-- **C2, amended.** For every input and injected clock, the payload
handed to the template renderer contains the normalized vulnerability
list, the aggregate counts computed from it, and a generation timestamp;
no title is included (the code passes none). -/
theorem claim_C2_amended (data : JSVal) (clock : JSDate) (l : List Vulnerability)
    (h : getVulnerabilities data = some l) :
    generateTemplateData data clock =
      some
        { vulnsFound := l.length
          vulnerableDependencies := (setOfList (l.map fun v => v.package)).length
          currentDate := getCurrentDate clock
          criticalVulns := countVulnerabilities l "critical"
          highVulns := countVulnerabilities l "high"
          moderateVulns := countVulnerabilities l "moderate"
          lowVulns := countVulnerabilities l "low"
          infoVulns := countVulnerabilities l "info"
          vulnerabilities := l } := by
  simp [generateTemplateData, h]

/-- Witness for the amended C2 at the Scenario-A document. -/
theorem claim_C2_witness :
    generateTemplateData docAdv sampleClock =
      some
        { vulnsFound := [vulnFoo].length
          vulnerableDependencies :=
            (setOfList ([vulnFoo].map fun v => v.package)).length
          currentDate := getCurrentDate sampleClock
          criticalVulns := countVulnerabilities [vulnFoo] "critical"
          highVulns := countVulnerabilities [vulnFoo] "high"
          moderateVulns := countVulnerabilities [vulnFoo] "moderate"
          lowVulns := countVulnerabilities [vulnFoo] "low"
          infoVulns := countVulnerabilities [vulnFoo] "info"
          vulnerabilities := [vulnFoo] } :=
  claim_C2_amended docAdv sampleClock [vulnFoo] (by rfl)

/-- **C1, counterexample.** On an advisory with truthy title, a one-element
`cwe` and no `cves`, the mapper's `cwes` is `"CWE-79, "` — the CWE
identifiers joined with `", "` plus a trailing separator — not
`"CWE-79"`, the identifiers joined with `", "` and nothing more as the
claim states. -/
theorem claim_C1_counterexample :
    processVulnerability advTrailDoc =
      some (some
        { link := .undef, name := .str "T", package := .undef,
          severity := .undef, cwes := "CWE-79, " }) ∧
    "CWE-79, " ≠ jsJoinWith ", " [JSVal.str "CWE-79"] := by
  exact ⟨rfl, by decide⟩

/-- **C1, amended.** For every raw advisory with a truthy title whose
effective `cwe` is a sequence: when `cves` is present as a sequence,
`cwes` is the `cwe` elements followed by the `cves` elements joined with
`", "`; when `cves` is absent, `Array.prototype.concat` appends
`undefined` itself as one element, which `join` renders empty, so `cwes`
is the `cwe` identifiers joined with `", "` followed by a trailing `", "`
when `cwe` is non-empty, and the empty string when both are empty. -/
theorem claim_C1_amended_cwes (vuln : JSVal) (cs : List JSVal)
    (ht : truthy (getProp vuln "title") = true)
    (hc : (if truthy (getProp vuln "cwe") then getProp vuln "cwe" else JSVal.arr []) =
      JSVal.arr cs) :
    (∀ vs, getProp vuln "cves" = JSVal.arr vs →
        ∃ v, processVulnerability vuln = some (some v) ∧
          v.cwes = jsJoinWith ", " (cs ++ vs)) ∧
    (getProp vuln "cves" = JSVal.undef →
        ∃ v, processVulnerability vuln = some (some v) ∧
          v.cwes = jsJoinWith ", " cs ++ (if cs.isEmpty then "" else ", ")) := by
  have hcc : computeCwes vuln =
      some (jsJoinWith ", " (arrayConcat cs (getProp vuln "cves"))) := by
    simp only [computeCwes]
    rw [hc]
  have hpv : processVulnerability vuln =
      some (some
        { link := getProp vuln "url"
          name := getProp vuln "title"
          package := jsOr (getProp vuln "name") (getProp vuln "module_name")
          severity := getProp vuln "severity"
          cwes := jsJoinWith ", " (arrayConcat cs (getProp vuln "cves")) }) := by
    simp [processVulnerability, ht, hcc]
  constructor
  · intro vs hvs
    refine ⟨_, hpv, ?_⟩
    rw [hvs]
    rfl
  · intro hvs
    refine ⟨_, hpv, ?_⟩
    rw [hvs, show arrayConcat cs JSVal.undef = cs ++ [JSVal.undef] from rfl,
      jsJoinWith_append_undef]

/-- Witness for the amended C1: the `cves`-absent case on `advTrailDoc`. -/
theorem claim_C1_witness :
    ∃ v, processVulnerability advTrailDoc = some (some v) ∧
      v.cwes = jsJoinWith ", " [JSVal.str "CWE-79"] ++
        (if ([JSVal.str "CWE-79"] : List JSVal).isEmpty then "" else ", ") :=
  (claim_C1_amended_cwes advTrailDoc [JSVal.str "CWE-79"] (by rfl) (by rfl)).2 (by rfl)

/-- **C3.** A raw entry contributes a record to the mapper's output if and
only if it is an object with a non-empty (truthy) `title`; non-objects
(such as plain-string `via` elements) and objects without such a title
map to `undefined` and are filtered out, so every `Vulnerability` in the
final list has a non-empty (truthy) `name` and no null/partial record is
produced. -/
theorem claim_C3_title_filter :
    (∀ (raw : List JSVal) (mapped : List (Option Vulnerability)),
        mapProcess raw = some mapped →
        mapped.length = raw.length ∧
        ∀ (i : Nat) (h1 : i < raw.length) (h2 : i < mapped.length),
          (mapped.get ⟨i, h2⟩).isSome =
            (isObjB (raw.get ⟨i, h1⟩) && truthy (getProp (raw.get ⟨i, h1⟩) "title"))) ∧
    (∀ (data : JSVal) (l : List Vulnerability),
        getVulnerabilities data = some l → ∀ v ∈ l, truthy v.name = true) := by
  constructor
  · intro raw mapped h
    rcases mapProcess_eq_some raw mapped h with ⟨hlen, hget, _⟩
    exact ⟨hlen, fun i h1 h2 => processVulnerability_isSome _ _ (hget i h1 h2)⟩
  · intro data l h v hv
    rw [getVulnerabilities] at h
    cases hraw : getVulnerabilitiesRaw data with
    | none =>
      rw [hraw] at h
      cases h
    | some raw =>
      rw [hraw] at h
      simp only [Option.bind_eq_bind, Option.some_bind] at h
      cases hm : mapProcess raw with
      | none =>
        rw [hm] at h
        simp only [Option.bind_eq_bind, Option.none_bind] at h
        exact Option.noConfusion h
      | some mapped =>
        rw [hm] at h
        simp only [Option.bind_eq_bind, Option.some_bind, Option.pure_def,
          Option.some.injEq] at h
        subst h
        rcases List.mem_filterMap.mp hv with ⟨ov, hovmem, hov⟩
        simp only [id] at hov
        subst hov
        rcases (mapProcess_eq_some raw mapped hm).2.2 _ hovmem with ⟨u, hu⟩
        exact (processVulnerability_name u v hu).2

/-- Witness for C3: the record produced from the Scenario-A document has a
truthy name. -/
theorem claim_C3_witness : truthy vulnFoo.name = true :=
  claim_C3_title_filter.2 docAdv [vulnFoo] (by rfl) vulnFoo (by simp)

/-- **C4, counterexample.** A document whose `vulnerabilities` key is
present but holds `null` next to a populated `advisories` map: the claim
says the normalizer must take the `vulnerabilities` branch and never read
`advisories`, yet the code yields the advisory stored under `advisories`
— removing the `advisories` entry (leaving `vulnerabilities` unchanged)
changes the output. -/
theorem claim_C4_counterexample :
    hasKey docBothKeys "vulnerabilities" = true ∧
    hasKey docOnlyFalsyVulns "vulnerabilities" = true ∧
    getProp docBothKeys "vulnerabilities" = getProp docOnlyFalsyVulns "vulnerabilities" ∧
    getVulnerabilities docBothKeys = some [vulnFoo] ∧
    getVulnerabilities docOnlyFalsyVulns = some [] ∧
    (some [vulnFoo] : Option (List Vulnerability)) ≠ some [] := by
  refine ⟨rfl, rfl, rfl, rfl, rfl, by decide⟩

/-- **C4, amended.** The branch test is truthiness, not key presence:
when `vulnerabilities` is truthy, the normalizer's output depends only on
that value (never on `advisories`) and, when every package entry's `via`
spreads, collects every element of each package's `via` in key order;
when `vulnerabilities` is falsy (even if the key is present) and
`advisories` is truthy, it collects every value of the `advisories`
mapping; when both are falsy it produces the empty sequence. -/
theorem claim_C4_amended_branching :
    (∀ d1 d2 : JSVal,
        truthy (getProp d1 "vulnerabilities") = true →
        getProp d1 "vulnerabilities" = getProp d2 "vulnerabilities" →
        getVulnerabilities d1 = getVulnerabilities d2) ∧
    (∀ (data : JSVal) (entries : List (String × JSVal)),
        getProp data "vulnerabilities" = JSVal.obj entries →
        (∀ e ∈ entries, (spreadVia (getProp e.2 "via")).isSome = true) →
        getVulnerabilitiesRaw data =
          some (entries.flatMap fun e => (spreadVia (getProp e.2 "via")).getD [])) ∧
    (∀ data : JSVal,
        truthy (getProp data "vulnerabilities") = false →
        truthy (getProp data "advisories") = true →
        getVulnerabilitiesRaw data =
          some ((ownEnumerableEntries (getProp data "advisories")).map Prod.snd)) ∧
    (∀ data : JSVal,
        truthy (getProp data "vulnerabilities") = false →
        truthy (getProp data "advisories") = false →
        getVulnerabilitiesRaw data = some []) := by
  refine ⟨?_, ?_, ?_, ?_⟩
  · intro d1 d2 h1 heq
    have h2 : truthy (getProp d2 "vulnerabilities") = true := heq ▸ h1
    rw [getVulnerabilities, getVulnerabilities, getVulnerabilitiesRaw,
      getVulnerabilitiesRaw, h1, h2, heq]
    simp
  · intro data entries he hall
    have ht : truthy (getProp data "vulnerabilities") = true := by rw [he]; rfl
    rw [getVulnerabilitiesRaw, ht, if_pos rfl, he]
    exact collectViaAll_eq_some entries hall
  · intro data h1 h2
    simp [getVulnerabilitiesRaw, h1, h2]
  · intro data h1 h2
    simp [getVulnerabilitiesRaw, h1, h2]

/-- Witness for the amended C4: the legacy branch on the Scenario-A
document. -/
theorem claim_C4_witness :
    getVulnerabilitiesRaw docAdv =
      some ((ownEnumerableEntries (getProp docAdv "advisories")).map Prod.snd) :=
  claim_C4_amended_branching.2.2.1 docAdv (by rfl) (by rfl)

/-- **C9.** In the modern-schema branch, a package entry whose `via` is
absent or not iterable makes the normalizer throw (no output at all)
rather than skip that package; and when every package entry carries an
iterable `via`, the raw collection succeeds — so the collection loop is
total exactly under that precondition. -/
theorem claim_C9_via_throw (data : JSVal) (entries : List (String × JSVal))
    (hv : getProp data "vulnerabilities" = JSVal.obj entries) :
    (∀ e ∈ entries, spreadVia (getProp e.2 "via") = none →
        getVulnerabilitiesRaw data = none ∧ getVulnerabilities data = none) ∧
    ((∀ e ∈ entries, (spreadVia (getProp e.2 "via")).isSome = true) →
        (getVulnerabilitiesRaw data).isSome = true) := by
  have ht : truthy (getProp data "vulnerabilities") = true := by rw [hv]; rfl
  constructor
  · intro e he hnone
    have hraw : getVulnerabilitiesRaw data = none := by
      rw [getVulnerabilitiesRaw, ht, if_pos rfl, hv]
      exact collectViaAll_eq_none entries e he hnone
    exact ⟨hraw, by simp [getVulnerabilities, hraw]⟩
  · intro hall
    rw [getVulnerabilitiesRaw, ht, if_pos rfl, hv]
    rw [show ownEnumerableEntries (JSVal.obj entries) = entries from rfl,
      collectViaAll_eq_some entries hall]
    rfl

/-- Witness for C9 at a document whose only package entry has no `via`. -/
theorem claim_C9_witness :
    getVulnerabilitiesRaw docMissingVia = none ∧ getVulnerabilities docMissingVia = none :=
  (claim_C9_via_throw docMissingVia [("pkgA", JSVal.obj [])] (by rfl)).1
    ("pkgA", JSVal.obj []) (by simp) (by rfl)

end AuditExport
